import Mathlib

/-!
Verification development for the oas2 package: a shallow embedding of
`convert.go`, `middleware.go` and the router construction file, with theorems
checking the natural-language specification against the code.

Modelling conventions:
- Go strings are Lean `String`; byte sequences are `List Nat`.
- Go's `(value, error)` return pairs become `Except String _`.
- Machine integers are `Int` with explicit range checks where the Go standard
  library performs them (`strconv.ParseInt` bit sizes).
- Floating point parse results are modelled exactly: a parsed decimal literal
  becomes the (mantissa, base-10 exponent) pair it denotes
  (`FloatVal.finite`), with the `strconv` overflow check expressed as an exact
  integer comparison; `inf`/`nan` specials are explicit constructors.
  Rounding to binary floats is not modelled, since no claim depends on it.
-/

set_option maxRecDepth 40000

deriving instance DecidableEq for Except

namespace Oas2

/-! ### Typed values produced by parameter conversion (convert.go) -/

/-- Result of parsing a floating point literal: an exact finite value
`mant * 10 ^ exp10`, an infinity, or NaN.  The pair representation keeps the
model kernel-computable; the literal grammar makes it deterministic. -/
inductive FloatVal where
  | finite (mant : Int) (exp10 : Int)
  | posInf
  | negInf
  | nan
deriving DecidableEq

/-- The dynamic value `interface{}` returned by the converters: a Go string,
`int32`, `int64`, `float32`, `float64` or `bool`, tagged by which converter
produced it. -/
inductive TypedValue where
  | vStr (s : String)
  | vInt32 (n : Int)
  | vInt64 (n : Int)
  | vFloat32 (x : FloatVal)
  | vFloat64 (x : FloatVal)
  | vBool (b : Bool)
deriving DecidableEq

/-- Boolean success test for the `Except`-modelled Go `(value, error)` pair. -/
def isOk : Except String TypedValue → Bool
  | Except.ok _ => true
  | Except.error _ => false

/-! ### Models of the strconv parsers used by convert.go -/

/-- Numeric value of a decimal digit character. -/
def digitVal (c : Char) : Nat := c.toNat - 48

/-- Value of a list of decimal digit characters, most significant first. -/
def decDigitsVal (cs : List Char) : Nat :=
  cs.foldl (fun a c => 10 * a + digitVal c) 0

/-- Strip an optional leading sign; `true` means negative. -/
def parseSign : List Char → Bool × List Char
  | '+' :: rest => (false, rest)
  | '-' :: rest => (true, rest)
  | cs => (false, cs)

/-- Model of `strconv.ParseInt(s, 10, bits)`: optional sign, then a non-empty
run of decimal digits spanning the whole string, with the value required to
fit in `bits`-bit two's complement range.  `none` models a non-nil error. -/
def goParseInt (s : String) (bits : Nat) : Option Int :=
  let p := parseSign s.data
  if p.2 = [] ∨ p.2.all (fun c => c.isDigit) = false then none
  else
    let n : Int := decDigitsVal p.2
    let v : Int := if p.1 then -n else n
    if -(2 ^ (bits - 1)) ≤ v ∧ v ≤ 2 ^ (bits - 1) - 1 then some v else none

/-- Take the maximal leading run of decimal digits. -/
def takeDigits : List Char → List Char × List Char
  | [] => ([], [])
  | c :: rest =>
    if c.isDigit then
      let p := takeDigits rest
      (c :: p.1, p.2)
    else ([], c :: rest)

/-- Parse an unsigned decimal floating literal `digits [. digits] [(e|E) [sign]
digits]` to the exact pair (mantissa digits, base-10 exponent) it denotes; at
least one digit must appear in the mantissa and the whole input must be
consumed. -/
def parseDecimal (cs : List Char) : Option (Nat × Int) :=
  let ip := takeDigits cs
  let fp : List Char × List Char :=
    match ip.2 with
    | '.' :: rest => takeDigits rest
    | _ => ([], ip.2)
  if ip.1 = [] ∧ fp.1 = [] then none
  else
    let mant : Nat := decDigitsVal (ip.1 ++ fp.1)
    let fracLen : Int := fp.1.length
    match fp.2 with
    | [] => some (mant, -fracLen)
    | e :: rest =>
      if e = 'e' ∨ e = 'E' then
        let es := parseSign rest
        let ed := takeDigits es.2
        if ed.1 = [] ∨ ed.2 ≠ [] then none
        else
          let ev : Int := decDigitsVal ed.1
          some (mant, (if es.1 then -ev else ev) - fracLen)
      else none

/-- ASCII lower-casing of a character, as `strings.ToLower` acts on the ASCII
inputs this package compares against. -/
def asciiToLower (c : Char) : Char :=
  if 'A' ≤ c ∧ c ≤ 'Z' then Char.ofNat (c.toNat + 32) else c

/-- Model of `strings.ToLower` restricted to ASCII case mapping. -/
def goToLower (s : String) : String := String.mk (s.data.map asciiToLower)

/-- The `inf`/`infinity`/`nan` specials recognised case-insensitively by
`strconv.ParseFloat`. -/
def goParseFloatSpecial (s : String) : Option FloatVal :=
  let l := goToLower s
  if l = "inf" ∨ l = "+inf" ∨ l = "infinity" ∨ l = "+infinity" then
    some FloatVal.posInf
  else if l = "-inf" ∨ l = "-infinity" then some FloatVal.negInf
  else if l = "nan" then some FloatVal.nan
  else none

/-- Smallest magnitude that makes `strconv.ParseFloat` report a range error for
the given bit size: the rounding midpoint just above the largest finite float. -/
def overflowBound (bits : Nat) : Nat :=
  if bits = 32 then 2 ^ 128 - 2 ^ 103 else 2 ^ 1024 - 2 ^ 970

/-- Whether the exact value `m * 10 ^ e` reaches the overflow bound, computed
by clearing the denominator so the comparison stays over naturals. -/
def decimalOverflows (m : Nat) (e : Int) (bits : Nat) : Bool :=
  if 0 ≤ e then overflowBound bits ≤ m * 10 ^ e.toNat
  else overflowBound bits * 10 ^ (-e).toNat ≤ m

/-- Model of `strconv.ParseFloat(s, bits)` on the pre-hexadecimal-literal
grammar used by this package: specials, else optional sign and a decimal
literal, with the overflow range check.  `none` models a non-nil error. -/
def goParseFloat (s : String) (bits : Nat) : Option FloatVal :=
  match goParseFloatSpecial s with
  | some fv => some fv
  | none =>
    let sg := parseSign s.data
    match parseDecimal sg.2 with
    | none => none
    | some me =>
      if decimalOverflows me.1 me.2 bits then none
      else some (FloatVal.finite (if sg.1 then -(me.1 : Int) else (me.1 : Int)) me.2)

/-! ### convert.go -/

/-- The set of strings `convertBoolean` evaluates as `true`. -/
def evaluatesAsTrue : List String :=
  ["true", "1", "yes", "ok", "y", "on", "selected", "checked", "t", "enabled"]

/-- `convertString` from convert.go. -/
def convertString (val format : String) : Except String TypedValue :=
  if format = "" then Except.ok (TypedValue.vStr val)
  else Except.error ("unknown format " ++ format ++ " for type string")

/-- `convertInteger` from convert.go; the `int64` case falls through to the
empty format. -/
def convertInteger (val format : String) : Except String TypedValue :=
  if format = "int32" then
    match goParseInt val 32 with
    | some i => Except.ok (TypedValue.vInt32 i)
    | none => Except.error ("cannot convert " ++ val ++ " to int32")
  else if format = "int64" ∨ format = "" then
    match goParseInt val 64 with
    | some i => Except.ok (TypedValue.vInt64 i)
    | none => Except.error ("cannot convert " ++ val ++ " to int64")
  else Except.error ("unknown format " ++ format ++ " for type integer")

/-- `convertNumber` from convert.go; the `double` case falls through to the
empty format, and the default error message says "type integer" exactly as the
source does. -/
def convertNumber (val format : String) : Except String TypedValue :=
  if format = "float" then
    match goParseFloat val 32 with
    | some x => Except.ok (TypedValue.vFloat32 x)
    | none => Except.error ("cannot convert " ++ val ++ " to float")
  else if format = "double" ∨ format = "" then
    match goParseFloat val 64 with
    | some x => Except.ok (TypedValue.vFloat64 x)
    | none => Except.error ("cannot convert " ++ val ++ " to double")
  else Except.error ("unknown format " ++ format ++ " for type integer")

/-- `convertBoolean` from convert.go: case-insensitive membership in
`evaluatesAsTrue`, never an error. -/
def convertBoolean (val : String) : Except String TypedValue :=
  Except.ok (TypedValue.vBool (evaluatesAsTrue.contains (goToLower val)))

/-- `ConvertPrimitive` from convert.go: dispatch on the declared type. -/
def ConvertPrimitive (val typ format : String) : Except String TypedValue :=
  if typ = "string" then convertString val format
  else if typ = "number" then convertNumber val format
  else if typ = "integer" then convertInteger val format
  else if typ = "boolean" then convertBoolean val
  else Except.error ("unknown type: " ++ typ)

/-- `ConvertParameter` from convert.go: reject `array` and `file` as
unimplemented, require exactly one value, then delegate to
`ConvertPrimitive`. -/
def ConvertParameter (vals : List String) (typ format : String) :
    Except String TypedValue :=
  if typ = "array" then Except.error ("type " ++ typ ++ ": NOT IMPLEMENTED")
  else if typ = "file" then Except.error ("type " ++ typ ++ ": NOT IMPLEMENTED")
  else
    match vals with
    | [v] => ConvertPrimitive v typ format
    | _ =>
      Except.error ("values count is " ++ toString vals.length ++ ", want 1")

/-! ### Data model shared by the middleware (middleware.go) -/

/-- A schema is opaque to this package: the generic schema evaluator is an
external collaborator, so schemas are just identifiers here. -/
abbrev Schema := String

/-- An OAS 2.0 parameter as the middleware reads it: `Name`, `In`, `Type`,
`Format` and the required flag. -/
structure Param where
  name : String
  loc : String
  typ : String
  format : String
  required : Bool
deriving DecidableEq

/-- A contract operation: identifier, parameter list, and the
status-code-to-response map, where each response has an optional schema. -/
structure Operation where
  id : String
  parameters : List Param
  responses : List (Nat × Option Schema)
deriving DecidableEq

/-- An in-flight request as the middleware observes it.  `operation` is the
metadata stamped by the router (`GetOperation` reads it); `body` is the request
body, with `none` modelling `http.NoBody`; `ctx` is the chain of
`context.WithValue` path-parameter entries, innermost first. -/
structure Request where
  operation : Option Operation
  body : Option (List Nat)
  query : List (String × List String)
  ctx : List (String × TypedValue)
deriving DecidableEq

/-- Modelled from the spec: `GetOperation` (not among the provided sources)
returns the matched operation stamped into request-scoped metadata at
dispatch, or nil when no operation matched. -/
def GetOperation (req : Request) : Option Operation := req.operation

/-- `GetPathParam` from middleware.go: a `context.Value` lookup under the
parameter-name key, the innermost (most recently derived) entry winning. -/
def GetPathParam (req : Request) (name : String) : Option TypedValue :=
  (req.ctx.find? (fun kv => kv.1 == name)).map (fun kv => kv.2)

/-- Observable effects of running one middleware on one request: each
invocation of the caller error handler (with the error list passed to it) and
each hand-off to the downstream handler (with the request it receives). -/
inductive MwEvent where
  | errHandlerCall (errs : List String)
  | downstream (req : Request)
deriving DecidableEq

/-- The `continueOnError` value fixed by `NewQueryValidator` in
middleware.go. -/
def newQueryValidatorContinueOnError : Bool := false

/-- `queryValidatorMiddleware.Apply` from middleware.go, with the external
`ValidateQuery` collaborator passed in as a function.  Produces the trace of
error-handler and downstream invocations. -/
def queryValidatorApply
    (validateQuery : List Param → List (String × List String) → List String)
    (continueOnError : Bool) (req : Request) : List MwEvent :=
  match GetOperation req with
  | none => [MwEvent.downstream req]
  | some op =>
    let errs := validateQuery op.parameters req.query
    if errs.length > 0 then
      if continueOnError then [MwEvent.errHandlerCall errs, MwEvent.downstream req]
      else [MwEvent.errHandlerCall errs]
    else [MwEvent.downstream req]

/-- `bodyValidatorMiddleware.Apply` from middleware.go, with the external JSON
decoder and `ValidateBody` collaborators passed in as functions over a decoded
value type `J`.  The `io.TeeReader` copies every byte the decoder reads into
the buffer, and the decoder consumes the stream, so the buffer restored onto
the request on success holds the original body bytes. -/
def bodyValidatorApply (J : Type) (jsonDecode : List Nat → Option J)
    (validateBody : List Param → J → List String) (req : Request) :
    List MwEvent :=
  match req.body with
  | none => [MwEvent.downstream req]
  | some bs =>
    match GetOperation req with
    | none => [MwEvent.downstream req]
    | some op =>
      let buffered := bs
      match jsonDecode bs with
      | none => [MwEvent.errHandlerCall ["Body contains invalid json"]]
      | some body =>
        let errs := validateBody op.parameters body
        if errs.length > 0 then [MwEvent.errHandlerCall errs]
        else [MwEvent.downstream { req with body := some buffered }]

/-- `pathParameterExtractor.Apply` from middleware.go: for each path-located
parameter of the matched operation, extract the raw value with the injected
extractor, convert it, and on success derive a new request with the value
stored under the parameter's name; conversion failures leave the request
unchanged.  The downstream handler always runs. -/
def pathParameterExtractorApply (extractor : Request → String → String)
    (req : Request) : List MwEvent :=
  match GetOperation req with
  | none => [MwEvent.downstream req]
  | some op =>
    let req2 := op.parameters.foldl (fun r p =>
      if p.loc ≠ "path" then r
      else
        match ConvertPrimitive (extractor r p.name) p.typ p.format with
        | Except.ok v => { r with ctx := (p.name, v) :: r.ctx }
        | Except.error _ => r) req
    [MwEvent.downstream req2]

/-! ### Response writing and the response body validator (middleware.go) -/

/-- The client-visible state of a response: the status line, set exactly once
by the first write, and the accumulated body bytes. -/
structure RespWriter where
  status : Option Nat
  bodyBytes : List Nat
deriving DecidableEq

/-- `WriteHeader`: the first call sets the status; later calls are ignored. -/
def writeHeader (w : RespWriter) (code : Nat) : RespWriter :=
  match w.status with
  | some _ => w
  | none => { w with status := some code }

/-- `Write`: appends bytes, implicitly committing status 200 first if no
status was set. -/
def writeBody (w : RespWriter) (bs : List Nat) : RespWriter :=
  { status := some (w.status.getD 200), bodyBytes := w.bodyBytes ++ bs }

/-- One write action a handler (or error handler) performs on a response
writer. -/
inductive WAction where
  | header (code : Nat)
  | chunk (bs : List Nat)
deriving DecidableEq

/-- Apply one write action to a plain writer. -/
def applyW (w : RespWriter) : WAction → RespWriter
  | WAction.header c => writeHeader w c
  | WAction.chunk bs => writeBody w bs

/-- Run a sequence of write actions against a plain writer. -/
def runW (acts : List WAction) (w : RespWriter) : RespWriter :=
  acts.foldl applyW w

/-- Modelled from the spec: the response recorder built by
`NewResponseRecorder` (not among the provided sources) wraps a response
writer, capturing the final status and the full payload while passing every
write through to the underlying writer unchanged; an unset status reads as
200. -/
structure ResponseRecorder where
  underlying : RespWriter
  recStatus : Option Nat
  recPayload : List Nat

/-- Modelled from the spec: wrap a writer in a fresh recorder. -/
def NewResponseRecorder (w : RespWriter) : ResponseRecorder :=
  { underlying := w, recStatus := none, recPayload := [] }

/-- Modelled from the spec: one pass-through write on the recorder. -/
def recorderApply (rr : ResponseRecorder) : WAction → ResponseRecorder
  | WAction.header c =>
    { underlying := writeHeader rr.underlying c
      recStatus := some (rr.recStatus.getD c)
      recPayload := rr.recPayload }
  | WAction.chunk bs =>
    { underlying := writeBody rr.underlying bs
      recStatus := some (rr.recStatus.getD 200)
      recPayload := rr.recPayload ++ bs }

/-- Run a sequence of write actions against the recorder. -/
def runRecorder (acts : List WAction) (rr : ResponseRecorder) : ResponseRecorder :=
  acts.foldl recorderApply rr

/-- `Status()` of the recorder, defaulting to 200 when nothing was written. -/
def rrStatus (rr : ResponseRecorder) : Nat := rr.recStatus.getD 200

/-- Lookup in the operation's `Responses.StatusCodeResponses` map. -/
def lookupResponse (responses : List (Nat × Option Schema)) (code : Nat) :
    Option (Option Schema) :=
  (responses.find? (fun kv => kv.1 == code)).map (fun kv => kv.2)

/-- `responseBodyValidator.Apply` from middleware.go.  The inner handler and
the caller error handler are modelled by the write actions they perform; the
external JSON decoder and `ValidateBySchema` collaborators are passed in as
functions.  Returns the final client-visible writer state. -/
def responseBodyValidatorApply (J : Type) (jsonDecode : List Nat → Option J)
    (validateBySchema : Schema → J → List String)
    (errHandler : List String → List WAction)
    (next : List WAction) (req : Request) (w : RespWriter) : RespWriter :=
  match GetOperation req with
  | none => runW next w
  | some op =>
    let rr := runRecorder next (NewResponseRecorder w)
    match lookupResponse op.responses (rrStatus rr) with
    | none => rr.underlying
    | some none => rr.underlying
    | some (some schema) =>
      match jsonDecode rr.recPayload with
      | none => rr.underlying
      | some body =>
        let errs := validateBySchema schema body
        if errs.length > 0 then runW (errHandler errs) rr.underlying
        else rr.underlying

/-! ### Router construction (NewRouter source file) -/

/-- A request-time execution event of the composed operation handler: either a
custom middleware layer running, or the operation-identity stamp writing the
matched operation into request metadata. -/
inductive TraceEvent where
  | run (name : String)
  | stamp (opId : String)
deriving DecidableEq

/-- A handler modelled by the sequence of events it produces at request time,
in execution order. -/
abbrev TraceHandler := List TraceEvent

/-- Modelled from the spec: `operationIDMiddleware` (not among the provided
sources) stamps the matched operation into request metadata and then invokes
the wrapped handler, so its event precedes the wrapped handler's events. -/
def operationIDMiddleware (handler : TraceHandler) (opId : String) :
    TraceHandler :=
  TraceEvent.stamp opId :: handler

/-- The router options record built from defaults and caller options; the
default base router object is modelled with identifier 0 and the logger is
tracked only through the warnings the build emits. -/
structure RouterOptions where
  baseRouter : Nat
  mws : List (TraceHandler → TraceHandler)

/-- A caller option: override the base router, append a custom middleware, or
replace the logger (which leaves the modelled state unchanged). -/
inductive RouterOption where
  | baseRouterOpt (id : Nat)
  | middlewareOpt (mw : TraceHandler → TraceHandler)
  | loggerOpt

/-- Apply one caller option to the options record, as the option closures in
the source do. -/
def applyOption (opts : RouterOptions) : RouterOption → RouterOptions
  | RouterOption.baseRouterOpt i => { opts with baseRouter := i }
  | RouterOption.middlewareOpt mw => { opts with mws := opts.mws ++ [mw] }
  | RouterOption.loggerOpt => opts

/-- Fold the caller options over the defaults, in order. -/
def builtOptions (options : List RouterOption) : RouterOptions :=
  options.foldl applyOption { baseRouter := 0, mws := [] }

/-- The custom-middleware wrapping loop of `NewRouter`:
`for _, mwf := range opts.mws { handler = mwf(handler) }`. -/
def applyChain (mws : List (TraceHandler → TraceHandler))
    (handler : TraceHandler) : TraceHandler :=
  mws.foldl (fun h mwf => mwf h) handler

/-- The handler registry lookup `handlers[OperationID(op.ID)]`, with the
registry modelled as an association list. -/
def lookupHandler (handlers : List (String × TraceHandler)) (oid : String) :
    Option TraceHandler :=
  (handlers.find? (fun kv => kv.1 == oid)).map (fun kv => kv.2)

/-- One registered route: the `Route(method, path, handler)` call made on the
sub-router. -/
structure RouteEntry where
  method : String
  path : String
  handler : TraceHandler
deriving DecidableEq

/-- The operation-registration loop of `NewRouter`: for each (method, path,
operation), look up the handler; a missing handler logs a warning and skips
the route; otherwise wrap with the custom middleware chain, then with the
operation-identity stamp, and register on the sub-router. -/
def registerOps (handlers : List (String × TraceHandler))
    (mws : List (TraceHandler → TraceHandler))
    (ops : List (String × String × String))
    (acc : List RouteEntry × List String) : List RouteEntry × List String :=
  match ops with
  | [] => acc
  | (method, path, oid) :: rest =>
    match lookupHandler handlers oid with
    | none =>
      registerOps handlers mws rest
        (acc.1,
         acc.2 ++ ["oas2 router: no handler registered for operation " ++ oid])
    | some h =>
      registerOps handlers mws rest
        (acc.1 ++ [⟨method, path, operationIDMiddleware (applyChain mws h) oid⟩],
         acc.2)

/-- The contract as `NewRouter` consumes it: the base path and the
method-path-operation view produced by the external contract-analysis
collaborator. -/
structure Swagger where
  basePath : String
  operations : List (String × String × String)

/-- The observable result of `NewRouter`: the identifier of the returned
top-level router, the identifier of the sub-router the routes were registered
on, the `Route` calls, the `Mount` calls (path prefix and mounted router
identifier), the warnings logged, and the returned error. -/
structure BuildResult where
  router : Nat
  subrouter : Nat
  routes : List RouteEntry
  mounts : List (String × Nat)
  warnings : List String
  err : Option String

/-- `NewRouter` from the router source file: build options from defaults and
caller options, register every operation with a registered handler on
`subrouter := opts.baseRouter`, then `router := opts.baseRouter`,
`router.Mount(sw.BasePath, subrouter)`, and return `router, nil`. -/
def NewRouter (sw : Swagger) (handlers : List (String × TraceHandler))
    (options : List RouterOption) : BuildResult :=
  let opts := builtOptions options
  let subrouter := opts.baseRouter
  let built := registerOps handlers opts.mws sw.operations ([], [])
  let router := opts.baseRouter
  { router := router
    subrouter := subrouter
    routes := built.1
    mounts := [(sw.basePath, subrouter)]
    warnings := built.2
    err := none }

/-! ### Concrete fixtures used by the claim instances -/

/-- A matched operation declaring a single path parameter `id` of type
integer (empty format). -/
def petIdOperation : Operation :=
  ⟨"getPet", [⟨"id", "path", "integer", "", true⟩], []⟩

/-- A matched operation whose contract declares a schema for status 200. -/
def respReqFixture : Request :=
  ⟨some ⟨"op", [], [(200, some "s")]⟩, none, [], []⟩

/-! ### Helper lemmas about the router build -/

/-- Routes already accumulated survive the rest of the registration loop. -/
theorem registerOps_mem_mono (handlers : List (String × TraceHandler))
    (mws : List (TraceHandler → TraceHandler))
    (ops : List (String × String × String)) :
    ∀ (acc : List RouteEntry × List String) (e : RouteEntry),
      e ∈ acc.1 → e ∈ (registerOps handlers mws ops acc).1 := by
  induction ops with
  | nil => intro acc e he; simpa [registerOps] using he
  | cons hd tl ih =>
    intro acc e he
    obtain ⟨method, path, oid⟩ := hd
    cases hlk : lookupHandler handlers oid with
    | none =>
      simp only [registerOps, hlk]
      exact ih _ e he
    | some h =>
      simp only [registerOps, hlk]
      exact ih _ e (List.mem_append_left _ he)

/-- Every operation whose identifier has a registered handler contributes its
composed route to the registration loop's output. -/
theorem registerOps_mem (handlers : List (String × TraceHandler))
    (mws : List (TraceHandler → TraceHandler))
    (ops : List (String × String × String)) :
    ∀ (acc : List RouteEntry × List String) (m p oid : String)
      (h : TraceHandler), (m, p, oid) ∈ ops →
      lookupHandler handlers oid = some h →
      (⟨m, p, operationIDMiddleware (applyChain mws h) oid⟩ : RouteEntry)
        ∈ (registerOps handlers mws ops acc).1 := by
  induction ops with
  | nil => intro acc m p oid h hmem; simp at hmem
  | cons hd tl ih =>
    intro acc m p oid h hmem hlk
    obtain ⟨m0, p0, oid0⟩ := hd
    rcases List.mem_cons.mp hmem with heq | htl
    · rw [Prod.mk.injEq, Prod.mk.injEq] at heq
      obtain ⟨rfl, rfl, rfl⟩ := heq
      simp only [registerOps, hlk]
      exact registerOps_mem_mono handlers mws tl _ _
        (List.mem_append_right _ (List.mem_singleton.mpr rfl))
    · cases hlk0 : lookupHandler handlers oid0 with
      | none => simpa only [registerOps, hlk0] using ih _ m p oid h htl hlk
      | some h0 => simpa only [registerOps, hlk0] using ih _ m p oid h htl hlk

/-- With an empty handler registry, every operation adds exactly one warning. -/
theorem registerOps_empty_warnings
    (mws : List (TraceHandler → TraceHandler))
    (ops : List (String × String × String)) :
    ∀ (acc : List RouteEntry × List String),
      ((registerOps [] mws ops acc).2).length = acc.2.length + ops.length := by
  induction ops with
  | nil => intro acc; simp [registerOps]
  | cons hd tl ih =>
    intro acc
    obtain ⟨m, p, oid⟩ := hd
    have hlk : lookupHandler [] oid = none := rfl
    simp only [registerOps, hlk, ih, List.length_append, List.length_cons,
      List.length_nil]
    omega

/-! ### Claims C1, C2, C10: router construction -/

/-- Claim C1 (counterexample): with custom middleware A appended first and B
appended second around registered handler H, the composed handler does NOT
execute A, then B, then the operation-identity stamp, then H at request
time. -/
theorem newRouter_claimed_exec_order_fails :
    ¬ ((NewRouter ⟨"/base", [("GET", "/pets", "op1")]⟩
          [("op1", [TraceEvent.run "H"])]
          [RouterOption.middlewareOpt (fun h => TraceEvent.run "A" :: h),
           RouterOption.middlewareOpt (fun h => TraceEvent.run "B" :: h)]).routes
        = [⟨"GET", "/pets",
            [TraceEvent.run "A", TraceEvent.run "B", TraceEvent.stamp "op1",
             TraceEvent.run "H"]⟩]) := by decide

/-- Claim C1 (amended): with custom middleware A appended first and B appended
second around registered handler H, the composed handler executes, at request
time, the operation-identity stamp first, then B, then A, then H: the stamp is
applied last in the build sequence so it runs first, and custom middleware run
in reverse append order. -/
theorem newRouter_exec_order :
    (NewRouter ⟨"/base", [("GET", "/pets", "op1")]⟩
        [("op1", [TraceEvent.run "H"])]
        [RouterOption.middlewareOpt (fun h => TraceEvent.run "A" :: h),
         RouterOption.middlewareOpt (fun h => TraceEvent.run "B" :: h)]).routes
      = [⟨"GET", "/pets",
          [TraceEvent.stamp "op1", TraceEvent.run "B", TraceEvent.run "A",
           TraceEvent.run "H"]⟩] := by decide

/-- Claim C2 (counterexample): the sub-router the routes are registered on is
the very router object that is mounted on and returned — `subrouter` and
`router` are both `opts.baseRouter` — so it is not distinct from the top-level
router. -/
theorem newRouter_subrouter_is_toplevel :
    (NewRouter ⟨"/api", [("GET", "/pets", "op1")]⟩
        [("op1", [TraceEvent.run "H"])] [RouterOption.baseRouterOpt 7]).subrouter
      = (NewRouter ⟨"/api", [("GET", "/pets", "op1")]⟩
        [("op1", [TraceEvent.run "H"])] [RouterOption.baseRouterOpt 7]).router := by
  decide

/-- Claim C2 (amended): `NewRouter` registers each composed operation handler
against its (method, path) on the configured base router — which serves as
both the sub-router and the top-level router, the same object rather than a
fresh distinct one — then mounts that router at the contract's base path on
itself, and returns it with a nil error. -/
theorem newRouter_registration (sw : Swagger)
    (handlers : List (String × TraceHandler)) (options : List RouterOption) :
    (NewRouter sw handlers options).router = (builtOptions options).baseRouter
  ∧ (NewRouter sw handlers options).subrouter
      = (NewRouter sw handlers options).router
  ∧ (NewRouter sw handlers options).mounts
      = [(sw.basePath, (NewRouter sw handlers options).subrouter)]
  ∧ (∀ m p oid h, (m, p, oid) ∈ sw.operations →
      lookupHandler handlers oid = some h →
      (⟨m, p, operationIDMiddleware (applyChain (builtOptions options).mws h)
          oid⟩ : RouteEntry) ∈ (NewRouter sw handlers options).routes)
  ∧ (NewRouter sw handlers options).err = none := by
  refine ⟨rfl, rfl, rfl, ?_, rfl⟩
  intro m p oid h hmem hlk
  exact registerOps_mem handlers (builtOptions options).mws sw.operations _
    m p oid h hmem hlk

/-- Claim C2 (witness): instantiating the amended statement on a concrete
contract yields the expected registered route. -/
theorem newRouter_registration_witness :
    (⟨"GET", "/pets", [TraceEvent.stamp "op1", TraceEvent.run "H"]⟩ : RouteEntry)
      ∈ (NewRouter ⟨"/api", [("GET", "/pets", "op1")]⟩
          [("op1", [TraceEvent.run "H"])] []).routes :=
  (newRouter_registration ⟨"/api", [("GET", "/pets", "op1")]⟩
      [("op1", [TraceEvent.run "H"])] []).2.2.2.1 "GET" "/pets" "op1"
    [TraceEvent.run "H"] (List.mem_singleton.mpr rfl) rfl

/-- Claim C10: `NewRouter` always returns a nil error, for every contract,
registry and option list; in particular with an empty registry the build still
succeeds and merely logs one missing-handler warning per operation. -/
theorem newRouter_never_fails :
    (∀ (sw : Swagger) (handlers : List (String × TraceHandler))
        (options : List RouterOption),
        (NewRouter sw handlers options).err = none)
  ∧ (∀ (sw : Swagger) (options : List RouterOption),
        ((NewRouter sw [] options).warnings).length = sw.operations.length) := by
  constructor
  · intro sw handlers options; rfl
  · intro sw options
    have h := registerOps_empty_warnings (builtOptions options).mws
      sw.operations ([], [])
    simpa [NewRouter] using h

/-! ### Claims C5, C9: parameter conversion -/

/-- Claim C5: `ConvertPrimitive` behaves exactly per the section 4.1 table:
string with empty format is the identity and any other format errors; integer
dispatches to the 32-bit parse for "int32" and the 64-bit parse for "" or
"int64", erroring on other formats and unparsable values; number dispatches to
the 32-bit float parse for "float" and the 64-bit parse for "" or "double",
erroring otherwise; boolean returns true exactly for case-insensitive members
of the fixed set and false for everything else, never erroring; any other type
errors; the function is total, and the listed concrete table entries
evaluate as expected. -/
theorem convertPrimitive_table :
    (∀ v, ConvertPrimitive v "string" "" = Except.ok (TypedValue.vStr v))
  ∧ (∀ v f, f ≠ "" → isOk (ConvertPrimitive v "string" f) = false)
  ∧ (∀ v n, ConvertPrimitive v "integer" "int32"
        = Except.ok (TypedValue.vInt32 n) ↔ goParseInt v 32 = some n)
  ∧ (∀ v, goParseInt v 32 = none →
        isOk (ConvertPrimitive v "integer" "int32") = false)
  ∧ (∀ v f n, (f = "" ∨ f = "int64") →
        (ConvertPrimitive v "integer" f = Except.ok (TypedValue.vInt64 n)
          ↔ goParseInt v 64 = some n))
  ∧ (∀ v f, (f = "" ∨ f = "int64") → goParseInt v 64 = none →
        isOk (ConvertPrimitive v "integer" f) = false)
  ∧ (∀ v f, f ≠ "" → f ≠ "int32" → f ≠ "int64" →
        isOk (ConvertPrimitive v "integer" f) = false)
  ∧ (∀ v x, ConvertPrimitive v "number" "float"
        = Except.ok (TypedValue.vFloat32 x) ↔ goParseFloat v 32 = some x)
  ∧ (∀ v f x, (f = "" ∨ f = "double") →
        (ConvertPrimitive v "number" f = Except.ok (TypedValue.vFloat64 x)
          ↔ goParseFloat v 64 = some x))
  ∧ (∀ v f, f ≠ "" → f ≠ "float" → f ≠ "double" →
        isOk (ConvertPrimitive v "number" f) = false)
  ∧ (∀ v f, ConvertPrimitive v "boolean" f
        = Except.ok (TypedValue.vBool
            ((["true", "1", "yes", "ok", "y", "on", "selected", "checked",
               "t", "enabled"] : List String).contains (goToLower v))))
  ∧ (∀ v t f, t ≠ "string" → t ≠ "number" → t ≠ "integer" → t ≠ "boolean" →
        ConvertPrimitive v t f = Except.error ("unknown type: " ++ t))
  ∧ ConvertPrimitive "12" "integer" "" = Except.ok (TypedValue.vInt64 12)
  ∧ isOk (ConvertPrimitive "abc" "integer" "int64") = false
  ∧ ConvertPrimitive "2147483647" "integer" "int32"
      = Except.ok (TypedValue.vInt32 2147483647)
  ∧ isOk (ConvertPrimitive "2147483648" "integer" "int32") = false
  ∧ ConvertPrimitive "2147483648" "integer" "int64"
      = Except.ok (TypedValue.vInt64 2147483648)
  ∧ ConvertPrimitive "On" "boolean" "" = Except.ok (TypedValue.vBool true)
  ∧ ConvertPrimitive "off" "boolean" "weird"
      = Except.ok (TypedValue.vBool false)
  ∧ ConvertPrimitive "3.5" "number" ""
      = Except.ok (TypedValue.vFloat64 (FloatVal.finite 35 (-1))) := by
  refine ⟨?_, ?_, ?_, ?_, ?_, ?_, ?_, ?_, ?_, ?_, ?_, ?_, ?_, ?_, ?_, ?_, ?_,
    ?_, ?_, ?_⟩
  · intro v; simp [ConvertPrimitive, convertString]
  · intro v f hf; simp [ConvertPrimitive, convertString, hf, isOk]
  · intro v n
    simp only [ConvertPrimitive, convertInteger]
    norm_num
    cases hp : goParseInt v 32 <;> simp [hp]
  · intro v hp
    simp only [ConvertPrimitive, convertInteger]
    norm_num
    simp [hp, isOk]
  · intro v f n hf
    rcases hf with rfl | rfl <;>
      · simp only [ConvertPrimitive, convertInteger]
        norm_num
        cases hp : goParseInt v 64 <;> simp [hp]
  · intro v f hf hp
    rcases hf with rfl | rfl <;>
      · simp only [ConvertPrimitive, convertInteger]
        norm_num
        simp [hp, isOk]
  · intro v f hf h32 h64
    simp [ConvertPrimitive, convertInteger, hf, h32, h64, isOk]
  · intro v x
    simp only [ConvertPrimitive, convertNumber]
    norm_num
    cases hp : goParseFloat v 32 <;> simp [hp]
  · intro v f x hf
    rcases hf with rfl | rfl <;>
      · simp only [ConvertPrimitive, convertNumber]
        norm_num
        cases hp : goParseFloat v 64 <;> simp [hp]
  · intro v f hf hfl hdb
    simp [ConvertPrimitive, convertNumber, hf, hfl, hdb, isOk]
  · intro v f
    simp [ConvertPrimitive, convertBoolean, evaluatesAsTrue]
  · intro v t f h1 h2 h3 h4
    simp [ConvertPrimitive, h1, h2, h3, h4]
  · decide
  · decide
  · decide
  · decide
  · decide
  · decide
  · decide
  · decide

/-- Claim C5 (witness): the table theorem instantiated at concrete inputs
discharging its hypotheses. -/
theorem convertPrimitive_table_witness :
    isOk (ConvertPrimitive "x" "string" "hex") = false :=
  convertPrimitive_table.2.1 "x" "hex" (by decide)

/-- Claim C9: `ConvertParameter` rejects `array` and `file` as unimplemented
whatever the number of values; for every other type it returns an arity error
unless exactly one value is supplied; and with exactly one value it returns
exactly `ConvertPrimitive` on that value. -/
theorem convertParameter_cases :
    (∀ vals f, ConvertParameter vals "array" f
        = Except.error "type array: NOT IMPLEMENTED")
  ∧ (∀ vals f, ConvertParameter vals "file" f
        = Except.error "type file: NOT IMPLEMENTED")
  ∧ (∀ vals t f, t ≠ "array" → t ≠ "file" → vals.length ≠ 1 →
        ConvertParameter vals t f
          = Except.error ("values count is " ++ toString vals.length
              ++ ", want 1"))
  ∧ (∀ v t f, t ≠ "array" → t ≠ "file" →
        ConvertParameter [v] t f = ConvertPrimitive v t f) := by
  refine ⟨?_, ?_, ?_, ?_⟩
  · intro vals f; simp [ConvertParameter]
  · intro vals f; simp [ConvertParameter]
  · intro vals t f ht hf hlen
    match vals with
    | [] => simp [ConvertParameter, ht, hf]
    | [v] => simp at hlen
    | v :: w :: rest => simp [ConvertParameter, ht, hf]
  · intro v t f ht hf
    simp [ConvertParameter, ht, hf]

/-- Claim C9 (witness): the case theorem instantiated at concrete inputs
discharging its hypotheses. -/
theorem convertParameter_cases_witness :
    ConvertParameter ["5"] "integer" "" = ConvertPrimitive "5" "integer" "" :=
  convertParameter_cases.2.2.2 "5" "integer" "" (by decide) (by decide)

/-! ### Claims C7, C8, C3, C6: request-side middleware -/

/-- Claim C7: with a matched operation, a non-empty violation list makes the
Query Validator invoke the caller error handler exactly once with the full
list and, the continue-on-error flag being fixed false, never the downstream
handler; an empty list hands the unchanged request downstream without
touching the error handler. -/
theorem queryValidator_dispatch
    (vq : List Param → List (String × List String) → List String)
    (req : Request) (op : Operation) (hop : req.operation = some op) :
    (vq op.parameters req.query ≠ [] →
        queryValidatorApply vq newQueryValidatorContinueOnError req
          = [MwEvent.errHandlerCall (vq op.parameters req.query)])
  ∧ (vq op.parameters req.query = [] →
        queryValidatorApply vq newQueryValidatorContinueOnError req
          = [MwEvent.downstream req]) := by
  constructor
  · intro hne
    have hlen : 0 < (vq op.parameters req.query).length :=
      List.length_pos.mpr hne
    simp [queryValidatorApply, GetOperation, hop,
      newQueryValidatorContinueOnError, hlen]
  · intro he
    simp [queryValidatorApply, GetOperation, hop, he]

/-- Claim C7 (witness): a concrete validator reporting two violations reaches
the error handler once with both and never the downstream handler. -/
theorem queryValidator_dispatch_witness :
    queryValidatorApply (fun _ _ => ["e1", "e2"])
        newQueryValidatorContinueOnError ⟨some ⟨"op", [], []⟩, none, [], []⟩
      = [MwEvent.errHandlerCall ["e1", "e2"]] :=
  (queryValidator_dispatch (fun _ _ => ["e1", "e2"])
      ⟨some ⟨"op", [], []⟩, none, [], []⟩ ⟨"op", [], []⟩ rfl).1 (by decide)

/-- Claim C8: the Body Validator passes the request through unchanged —
downstream invoked once with the same request, error handler never — whenever
the body is empty (`http.NoBody`) or no operation is matched. -/
theorem bodyValidator_passthrough (J : Type) (jd : List Nat → Option J)
    (vb : List Param → J → List String) (req : Request)
    (h : req.body = none ∨ req.operation = none) :
    bodyValidatorApply J jd vb req = [MwEvent.downstream req] := by
  rcases h with hb | hop
  · simp [bodyValidatorApply, hb]
  · cases hbv : req.body with
    | none => simp [bodyValidatorApply, hbv]
    | some bs => simp [bodyValidatorApply, hbv, GetOperation, hop]

/-- Claim C8 (witness): a bodyless request passes through unchanged. -/
theorem bodyValidator_passthrough_witness :
    bodyValidatorApply Unit (fun _ => some ()) (fun _ _ => [])
        ⟨none, none, [], []⟩
      = [MwEvent.downstream ⟨none, none, [], []⟩] :=
  bodyValidator_passthrough Unit (fun _ => some ()) (fun _ _ => [])
    ⟨none, none, [], []⟩ (Or.inl rfl)

/-- Claim C3: when the payload decodes and validates successfully, the Body
Validator hands downstream a request whose body is byte-for-byte the original
payload (the tee buffer holds everything the decoder consumed, and it is
restored onto the request). -/
theorem bodyValidator_replays_original (J : Type) (jd : List Nat → Option J)
    (vb : List Param → J → List String) (req : Request) (op : Operation)
    (bs : List Nat) (v : J) (hb : req.body = some bs)
    (hop : req.operation = some op) (hdec : jd bs = some v)
    (hval : vb op.parameters v = []) :
    bodyValidatorApply J jd vb req = [MwEvent.downstream req] := by
  obtain ⟨o, b, q, c⟩ := req
  simp only at hb hop
  subst hb; subst hop
  simp [bodyValidatorApply, GetOperation, hdec, hval]

/-- Claim C3 (witness): a concrete accepted payload is replayed unchanged. -/
theorem bodyValidator_replays_original_witness :
    bodyValidatorApply Unit (fun _ => some ()) (fun _ _ => [])
        ⟨some ⟨"op", [], []⟩, some [1, 2], [], []⟩
      = [MwEvent.downstream ⟨some ⟨"op", [], []⟩, some [1, 2], [], []⟩] :=
  bodyValidator_replays_original Unit (fun _ => some ()) (fun _ _ => [])
    ⟨some ⟨"op", [], []⟩, some [1, 2], [], []⟩ ⟨"op", [], []⟩ [1, 2] ()
    rfl rfl rfl rfl

/-- Evaluation fact used for the path-parameter round trip. -/
theorem convertPrimitive_12_integer :
    ConvertPrimitive "12" "integer" "" = Except.ok (TypedValue.vInt64 12) := by
  decide

/-- Evaluation fact used for the path-parameter round trip. -/
theorem convertPrimitive_abc_integer :
    ConvertPrimitive "abc" "integer" ""
      = Except.error "cannot convert abc to int64" := by decide

/-- Claim C6: on an operation declaring path parameter `id` of type integer,
an extracted raw value "12" makes `GetPathParam req "id"` return the int64
value 12 downstream; an extracted "abc" stores nothing (`GetPathParam`
absent); and for every request and extractor the downstream handler is always
invoked — conversion failures are silently skipped with no client-visible
error. -/
theorem pathParam_roundtrip (req : Request) (ext : Request → String → String)
    (hop : req.operation = some petIdOperation) (hctx : req.ctx = []) :
    (ext req "id" = "12" →
      ∃ req2, pathParameterExtractorApply ext req = [MwEvent.downstream req2]
        ∧ GetPathParam req2 "id" = some (TypedValue.vInt64 12))
  ∧ (ext req "id" = "abc" →
      pathParameterExtractorApply ext req = [MwEvent.downstream req]
        ∧ GetPathParam req "id" = none)
  ∧ (∀ (req2 : Request) (ext2 : Request → String → String),
      ∃ req3, pathParameterExtractorApply ext2 req2 = [MwEvent.downstream req3]) := by
  refine ⟨?_, ?_, ?_⟩
  · intro hext
    refine ⟨{ req with ctx := ("id", TypedValue.vInt64 12) :: req.ctx }, ?_, ?_⟩
    · simp [pathParameterExtractorApply, GetOperation, hop, petIdOperation,
        hext, convertPrimitive_12_integer]
    · simp [GetPathParam]
  · intro hext
    constructor
    · simp [pathParameterExtractorApply, GetOperation, hop, petIdOperation,
        hext, convertPrimitive_abc_integer]
    · simp [GetPathParam, hctx]
  · intro req2 ext2
    cases h : GetOperation req2 with
    | none => exact ⟨req2, by simp [pathParameterExtractorApply, h]⟩
    | some op2 =>
      exact ⟨op2.parameters.foldl
        (fun r p =>
          if p.loc ≠ "path" then r
          else
            match ConvertPrimitive (ext2 r p.name) p.typ p.format with
            | Except.ok v => { r with ctx := (p.name, v) :: r.ctx }
            | Except.error _ => r) req2,
        by simp [pathParameterExtractorApply, h]⟩

/-- Claim C6 (witness): the round trip at a concrete request and extractor. -/
theorem pathParam_roundtrip_witness :
    ∃ req2, pathParameterExtractorApply (fun _ _ => "12")
        ⟨some petIdOperation, none, [], []⟩ = [MwEvent.downstream req2]
      ∧ GetPathParam req2 "id" = some (TypedValue.vInt64 12) :=
  (pathParam_roundtrip ⟨some petIdOperation, none, [], []⟩ (fun _ _ => "12")
      rfl rfl).1 rfl

/-! ### Claim C4: response body validator -/

/-- The recorder passes every write through: after running the handler's
writes, the underlying writer is exactly what the handler would have produced
writing directly. -/
theorem runRecorder_underlying (acts : List WAction) :
    ∀ rr : ResponseRecorder,
      (runRecorder acts rr).underlying = runW acts rr.underlying := by
  induction acts with
  | nil => intro rr; rfl
  | cons a tl ih =>
    intro rr
    have h1 : (recorderApply rr a).underlying = applyW rr.underlying a := by
      cases a <;> rfl
    calc (runRecorder (a :: tl) rr).underlying
        = (runRecorder tl (recorderApply rr a)).underlying := rfl
      _ = runW tl (recorderApply rr a).underlying := ih _
      _ = runW tl (applyW rr.underlying a) := by rw [h1]
      _ = runW (a :: tl) rr.underlying := rfl

/-- Writes never change a status that was already committed. -/
theorem runW_status (acts : List WAction) :
    ∀ (w : RespWriter) (c : Nat), w.status = some c →
      (runW acts w).status = some c := by
  induction acts with
  | nil => intro w c h; exact h
  | cons a tl ih =>
    intro w c h
    have h2 : (applyW w a).status = some c := by
      cases a with
      | header code => simp [applyW, writeHeader, h]
      | chunk bs => simp [applyW, writeBody, h]
    exact ih _ c h2

/-- Writes only ever append to the body. -/
theorem runW_body_extends (acts : List WAction) :
    ∀ w : RespWriter, ∃ t, (runW acts w).bodyBytes = w.bodyBytes ++ t := by
  induction acts with
  | nil => intro w; exact ⟨[], by simp [runW]⟩
  | cons a tl ih =>
    intro w
    obtain ⟨t, ht⟩ := ih (applyW w a)
    cases a with
    | header code =>
      have hwh : (writeHeader w code).bodyBytes = w.bodyBytes := by
        unfold writeHeader; cases w.status <;> rfl
      refine ⟨t, ?_⟩
      calc (runW (WAction.header code :: tl) w).bodyBytes
          = (runW tl (applyW w (WAction.header code))).bodyBytes := rfl
        _ = (applyW w (WAction.header code)).bodyBytes ++ t := ht
        _ = w.bodyBytes ++ t := by rw [show applyW w (WAction.header code)
              = writeHeader w code from rfl, hwh]
    | chunk bs =>
      refine ⟨bs ++ t, ?_⟩
      calc (runW (WAction.chunk bs :: tl) w).bodyBytes
          = (runW tl (applyW w (WAction.chunk bs))).bodyBytes := rfl
        _ = (applyW w (WAction.chunk bs)).bodyBytes ++ t := ht
        _ = w.bodyBytes ++ (bs ++ t) := by simp [applyW, writeBody]

/-- Claim C4 (counterexample): with a declared schema for the handler's
status, a violation reported by the schema evaluator, and a caller error
handler that writes one byte, the client-received body is the handler's bytes
followed by the error handler's byte — not exactly what the handler wrote. -/
theorem responseValidator_mutation_counterexample :
    (responseBodyValidatorApply Unit (fun _ => some ())
        (fun _ _ => ["violation"]) (fun _ => [WAction.chunk [9]])
        [WAction.chunk [1]] respReqFixture ⟨none, []⟩).bodyBytes = [1, 9]
  ∧ (runW [WAction.chunk [1]] ⟨none, []⟩).bodyBytes = [1]
  ∧ (responseBodyValidatorApply Unit (fun _ => some ())
        (fun _ _ => ["violation"]) (fun _ => [WAction.chunk [9]])
        [WAction.chunk [1]] respReqFixture ⟨none, []⟩).bodyBytes
      ≠ (runW [WAction.chunk [1]] ⟨none, []⟩).bodyBytes := by
  refine ⟨by decide, by decide, by decide⟩

/-- Claim C4 (amended): the Response Body Validator itself never alters the
response: the client always keeps the status the handler committed, the
client body always extends the handler's bytes, and the final state is either
exactly what the handler wrote or what the handler wrote followed by the
writes of the caller's error handler invoked on a non-empty violation
list. -/
theorem responseValidator_frame (J : Type) (jd : List Nat → Option J)
    (vs : Schema → J → List String) (eh : List String → List WAction)
    (next : List WAction) (req : Request) (w : RespWriter) :
    (∀ c, (runW next w).status = some c →
        (responseBodyValidatorApply J jd vs eh next req w).status = some c)
  ∧ (∃ t, (responseBodyValidatorApply J jd vs eh next req w).bodyBytes
        = (runW next w).bodyBytes ++ t)
  ∧ (responseBodyValidatorApply J jd vs eh next req w = runW next w
      ∨ ∃ errs, errs ≠ []
          ∧ responseBodyValidatorApply J jd vs eh next req w
              = runW (eh errs) (runW next w)) := by
  have hU : (runRecorder next (NewResponseRecorder w)).underlying
      = runW next w := by
    rw [runRecorder_underlying]; rfl
  cases hop : GetOperation req with
  | none =>
    simp only [responseBodyValidatorApply, hop]
    exact ⟨fun c hc => hc, ⟨[], by simp⟩, by simp⟩
  | some op =>
    simp only [responseBodyValidatorApply, hop]
    cases hlr : lookupResponse op.responses
        (rrStatus (runRecorder next (NewResponseRecorder w))) with
    | none =>
      simp only
      rw [hU]
      exact ⟨fun c hc => hc, ⟨[], by simp⟩, Or.inl rfl⟩
    | some oschema =>
      cases oschema with
      | none =>
        simp only
        rw [hU]
        exact ⟨fun c hc => hc, ⟨[], by simp⟩, Or.inl rfl⟩
      | some schema =>
        simp only
        cases hjd : jd (runRecorder next (NewResponseRecorder w)).recPayload with
        | none =>
          simp only
          rw [hU]
          exact ⟨fun c hc => hc, ⟨[], by simp⟩, Or.inl rfl⟩
        | some body =>
          simp only
          by_cases hv : 0 < (vs schema body).length
          · rw [if_pos hv, hU]
            obtain ⟨t, ht⟩ := runW_body_extends (eh (vs schema body)) (runW next w)
            exact ⟨fun c hc => runW_status _ _ c hc, ⟨t, ht⟩,
              Or.inr ⟨vs schema body, List.length_pos.mp hv, rfl⟩⟩
          · rw [if_neg hv, hU]
            exact ⟨fun c hc => hc, ⟨[], by simp⟩, Or.inl rfl⟩

/-- Claim C4 (witness): on the counterexample scenario the amended frame
conditions hold concretely — the status the handler committed survives. -/
theorem responseValidator_frame_witness :
    (responseBodyValidatorApply Unit (fun _ => some ())
        (fun _ _ => ["violation"]) (fun _ => [WAction.chunk [9]])
        [WAction.chunk [1]] respReqFixture ⟨none, []⟩).status = some 200 :=
  (responseValidator_frame Unit (fun _ => some ()) (fun _ _ => ["violation"])
      (fun _ => [WAction.chunk [9]]) [WAction.chunk [1]] respReqFixture
      ⟨none, []⟩).1 200 (by decide)

end Oas2
